import Mathlib

/-!
Verification of the layout-generation and transition engine of the
periodic_table_data repository.

The layout generator is embedded from the layouts source (the version carrying the
tetra layout, embedded in DEPLOYMENT.md): five generators producing one target pose
per item.  The transition engine is embedded from transform.js together with the
relevant behaviour of the tween library it drives (value capture at start, cubic
in-out easing, clamping of the elapsed fraction at 1, duration-zero handling,
removal of finished tweens, and stopping of active tweens).

Numbers are modelled as exact rationals.  The transcendental functions of the host
numeric environment (cos, sin, acos, sqrt and the constant pi) are abstracted as a
structure of primitives, so every generator is a computable function of those
primitives; the claims settled here do not depend on their values.  The rotation
produced by the lookAt method of the scene-graph library is kept symbolic: a pose
records either explicit Euler components or the look-at target that determined it.
-/

namespace Kasatria

/-- Abstraction of the transcendental functions of the host numeric environment. -/
structure MathPrims where
  cos : ℚ → ℚ
  sin : ℚ → ℚ
  acos : ℚ → ℚ
  sqrt : ℚ → ℚ
  pi : ℚ

/-- A 3D vector with exact rational components. -/
structure Vec3 where
  x : ℚ
  y : ℚ
  z : ℚ
deriving DecidableEq, Repr

def Vec3.zero : Vec3 := ⟨0, 0, 0⟩

def Vec3.add (a b : Vec3) : Vec3 := ⟨a.x + b.x, a.y + b.y, a.z + b.z⟩

def Vec3.sub (a b : Vec3) : Vec3 := ⟨a.x - b.x, a.y - b.y, a.z - b.z⟩

def Vec3.smul (c : ℚ) (a : Vec3) : Vec3 := ⟨c * a.x, c * a.y, c * a.z⟩

/-- The addScaledVector method: a + c * v. -/
def Vec3.addScaled (a v : Vec3) (c : ℚ) : Vec3 := a.add (Vec3.smul c v)

def Vec3.dot (a b : Vec3) : ℚ := a.x * b.x + a.y * b.y + a.z * b.z

def Vec3.cross (a b : Vec3) : Vec3 :=
  ⟨a.y * b.z - a.z * b.y, a.z * b.x - a.x * b.z, a.x * b.y - a.y * b.x⟩

/-- The normalize method: division by the length sqrt(v . v). -/
def Vec3.normalize (P : MathPrims) (v : Vec3) : Vec3 :=
  Vec3.smul (1 / P.sqrt (v.dot v)) v

/-- The lerp method: a + (b - a) * t componentwise. -/
def Vec3.lerpTo (a b : Vec3) (t : ℚ) : Vec3 := a.add (Vec3.smul t (b.sub a))

/-- Orientation of a generated target: either explicit Euler components set by
rotation.set, or the target point passed to the lookAt method (kept symbolic). -/
inductive Rot where
  | euler (e : Vec3)
  | lookAt (target : Vec3)
deriving DecidableEq, Repr

/-- One generated target: a position and an orientation. -/
structure Pose where
  position : Vec3
  rot : Rot
deriving DecidableEq, Repr

def defaultPose : Pose := ⟨Vec3.zero, Rot.euler Vec3.zero⟩

/-- Table layout: 20 columns by 10 rows, centered at the origin.
Constants from LAYOUT_CONSTANTS.TABLE: X_SPACING 250, Y_SPACING 320, COLS 20, ROWS 10.
The count parameter is an integer; the loop for i from 0 while i below count runs
count.toNat times. -/
def generateTableLayout (count : ℤ) : List Pose :=
  (List.range count.toNat).map fun i =>
    let col : ℕ := i % 20
    let row : ℕ := i / 20
    ⟨⟨((col : ℚ) - 20 / 2 + 0.5) * 250, (10 / 2 - (row : ℚ) - 0.5) * 320, 0⟩,
     Rot.euler Vec3.zero⟩

/-- Sphere layout: Fibonacci-sphere distribution, RADIUS 800, each target looking at
the origin. -/
def generateSphereLayout (P : MathPrims) (count : ℤ) : List Pose :=
  let n := count.toNat
  (List.range n).map fun (i : ℕ) =>
    let phi := P.acos (-1 + (2 * (i : ℚ)) / (n : ℚ))
    let theta := P.sqrt ((n : ℚ) * P.pi) * phi
    ⟨⟨800 * P.cos theta * P.sin phi, 800 * P.sin theta * P.sin phi, 800 * P.cos phi⟩,
     Rot.lookAt Vec3.zero⟩

/-- Sphere layout with the division by count instrumented: the division is performed
through a checked divide that fails on a zero divisor, so a successful result proves
that no division by zero was executed.  Otherwise identical to generateSphereLayout. -/
def qdivChecked (a b : ℚ) : Option ℚ := if b = 0 then none else some (a / b)

def generateSphereLayoutChecked (P : MathPrims) (count : ℤ) : Option (List Pose) :=
  let n := count.toNat
  (List.range n).mapM fun (i : ℕ) => do
    let q ← qdivChecked (2 * (i : ℚ)) (n : ℚ)
    let phi := P.acos (-1 + q)
    let theta := P.sqrt ((n : ℚ) * P.pi) * phi
    pure (⟨⟨800 * P.cos theta * P.sin phi, 800 * P.sin theta * P.sin phi, 800 * P.cos phi⟩,
           Rot.lookAt Vec3.zero⟩ : Pose)

/-- Double helix layout: two strands 180 degrees apart, RADIUS 500, TURN_ANGLE 0.3,
VERTICAL_STEP 40, per-strand radial offsets of 20 and -20, vertically centered by
centerOffset, each target looking at the central axis at its own height. -/
def generateHelixLayout (P : MathPrims) (count : ℤ) : List Pose :=
  let strandSteps : ℤ := ⌈(count : ℚ) / 2⌉
  let centerOffset : ℚ := ((strandSteps : ℚ) - 1) * 40 / 2
  (List.range count.toNat).map fun i =>
    let strand : ℕ := i % 2
    let k : ℕ := i / 2
    let angleOffset : ℚ := if strand = 0 then 0 else P.pi
    let angle := (k : ℚ) * 0.3 + angleOffset
    let strandOffset : ℚ := if strand = 0 then 20 else -20
    let radiusWithOffset := 500 + strandOffset
    let y := (k : ℚ) * 40 - centerOffset
    ⟨⟨radiusWithOffset * P.cos angle, y, radiusWithOffset * P.sin angle⟩,
     Rot.lookAt ⟨0, y, 0⟩⟩

/-- Grid layout: 5 by 4 by 10 lattice, spacings 250, 320, 250, centered at origin. -/
def generateGridLayout (count : ℤ) : List Pose :=
  (List.range count.toNat).map fun i =>
    let xi : ℕ := i % 5
    let yi : ℕ := (i / 5) % 4
    let zi : ℕ := i / (5 * 4)
    ⟨⟨((xi : ℚ) - 5 / 2 + 0.5) * 250, (4 / 2 - (yi : ℚ) - 0.5) * 320,
      ((zi : ℚ) - 10 / 2 + 0.5) * 250⟩,
     Rot.euler Vec3.zero⟩

/-- The four tetrahedron vertices, each scaled by SCALE 3.5. -/
def tetraVertices : List Vec3 :=
  [Vec3.smul 3.5 ⟨0, 520, 0⟩, Vec3.smul 3.5 ⟨-420, -320, -320⟩,
   Vec3.smul 3.5 ⟨420, -320, -320⟩, Vec3.smul 3.5 ⟨0, -320, 520⟩]

/-- The four faces as index triples into tetraVertices. -/
def tetraFaces : List (ℕ × ℕ × ℕ) := [(0, 1, 2), (0, 2, 3), (0, 3, 1), (1, 3, 2)]

/-- The van der Corput radical-inverse accumulation of the hammersley helper, written
with a structural fuel argument (the loop variable halves each iteration, so fuel
equal to the starting value always suffices). -/
def vdcAux : ℕ → ℕ → ℚ → ℚ
  | 0, _, _ => 0
  | fuel + 1, t, i =>
    if t = 0 then 0 else ((t % 2 : ℕ) : ℚ) * i + vdcAux fuel (t / 2) (i * 0.5)

/-- The hammersley helper of the tetra generator: index k of n maps to the pair
of k divided by n and the radical inverse of k. -/
def hammersley (k n : ℕ) : ℚ × ℚ := ((k : ℚ) / (n : ℚ), vdcAux k k 0.5)

/-- How many items the tetra generator puts on the given face: the floor of count
over 4, plus one for the first count mod 4 faces. -/
def itemsOnFace (n faceIndex : ℕ) : ℕ :=
  n / 4 + (if faceIndex < n % 4 then 1 else 0)

/-- The targets the tetra generator produces for one face: NORMAL_OFFSET 50, a pull
of 18 percent toward the face centroid, and tangential jitter scaled by 30 and 24. -/
def tetraFaceTargets (P : MathPrims) (n faceIndex : ℕ) : List Pose :=
  let cnt := itemsOnFace n faceIndex
  if cnt = 0 then []
  else
    let fc := tetraFaces.getD faceIndex (0, 0, 0)
    let a := tetraVertices.getD fc.1 Vec3.zero
    let b := tetraVertices.getD fc.2.1 Vec3.zero
    let c := tetraVertices.getD fc.2.2 Vec3.zero
    let edge1 := b.sub a
    let edge2 := c.sub a
    let tangent1 := Vec3.normalize P edge1
    let tangent2 := Vec3.normalize P edge2
    let normal := Vec3.normalize P (edge1.cross edge2)
    let faceCenter := Vec3.smul (1 / 3) ((a.add b).add c)
    (List.range cnt).map fun i =>
      let uv := hammersley i cnt
      let u := P.sqrt uv.1
      let v := uv.2 * u
      let weightA := 1 - u
      let weightB := u - v
      let weightC := v
      let pos0 := ((Vec3.zero.addScaled a weightA).addScaled b weightB).addScaled c weightC
      let pos1 := pos0.lerpTo faceCenter 0.18
      let jitter1 := (uv.1 - 0.5) * 30
      let jitter2 := (uv.2 - 0.5) * 24
      let pos2 := (pos1.addScaled tangent1 jitter1).addScaled tangent2 jitter2
      ⟨pos2.addScaled normal 50, Rot.lookAt (pos2.add normal)⟩

/-- Tetrahedron layout: the concatenation, face by face, of the per-face targets. -/
def generateTetraLayout (P : MathPrims) (count : ℤ) : List Pose :=
  (List.range 4).flatMap fun faceIndex => tetraFaceTargets P count.toNat faceIndex

/-- The mapping from layout name to target sequence returned by generateLayoutTargets. -/
structure LayoutTargets where
  table : List Pose
  sphere : List Pose
  helix : List Pose
  grid : List Pose
  tetra : List Pose
deriving DecidableEq, Repr

/-- Entry point of the layout generator: one target sequence per supported layout. -/
def generateLayoutTargets (P : MathPrims) (count : ℤ) : LayoutTargets :=
  { table := generateTableLayout count
    sphere := generateSphereLayout P count
    helix := generateHelixLayout P count
    grid := generateGridLayout count
    tetra := generateTetraLayout P count }

/-- Concrete instance of the transcendental primitives, used to instantiate
universally quantified theorems at a specific input. -/
def trivPrims : MathPrims :=
  { cos := fun _ => 0, sin := fun _ => 0, acos := fun _ => 0, sqrt := fun _ => 0, pi := 0 }

/-! Helper lemmas about lists used across the development. -/

lemma getD_range_map {α : Type} (f : ℕ → α) (n i : ℕ) (d : α) (h : i < n) :
    ((List.range n).map f).getD i d = f i := by
  rw [List.getD_eq_getElem?_getD, List.getElem?_map]
  simp [List.getElem?_range, h]

lemma length_tetraFaceTargets (P : MathPrims) (n f : ℕ) :
    (tetraFaceTargets P n f).length = itemsOnFace n f := by
  simp only [tetraFaceTargets]
  split
  · rename_i hcnt
    simp [hcnt]
  · simp

lemma length_generateTetraLayout (P : MathPrims) (count : ℤ) :
    (generateTetraLayout P count).length = count.toNat := by
  have h4 : count.toNat % 4 < 4 := Nat.mod_lt _ (by norm_num)
  have hr : List.range 4 = [0, 1, 2, 3] := rfl
  simp only [generateTetraLayout, List.length_flatMap, hr, List.map_cons, List.map_nil,
    List.sum_cons, List.sum_nil, Function.comp_apply, length_tetraFaceTargets, itemsOnFace]
  split_ifs <;> omega

lemma tetraFaceTargets_zero (P : MathPrims) (f : ℕ) : tetraFaceTargets P 0 f = [] := by
  simp [tetraFaceTargets, itemsOnFace]

lemma length_generateTableLayout (count : ℤ) :
    (generateTableLayout count).length = count.toNat := by
  simp only [generateTableLayout]
  rw [List.length_map, List.length_range]

lemma length_generateSphereLayout (P : MathPrims) (count : ℤ) :
    (generateSphereLayout P count).length = count.toNat := by
  simp only [generateSphereLayout]
  rw [List.length_map, List.length_range]

lemma length_generateHelixLayout (P : MathPrims) (count : ℤ) :
    (generateHelixLayout P count).length = count.toNat := by
  simp only [generateHelixLayout]
  rw [List.length_map, List.length_range]

lemma length_generateGridLayout (count : ℤ) :
    (generateGridLayout count).length = count.toNat := by
  simp only [generateGridLayout]
  rw [List.length_map, List.length_range]

/-- C1: for every count at least 0 and every supported layout name among table,
sphere, helix, grid and tetra, the sequence produced by generateLayoutTargets for
that layout has length exactly count; in particular the tetra generator per-face
item counts sum to count. -/
theorem layouts_C1_lengths (P : MathPrims) (count : ℤ) (h : 0 ≤ count) :
    ((generateLayoutTargets P count).table.length : ℤ) = count ∧
    ((generateLayoutTargets P count).sphere.length : ℤ) = count ∧
    ((generateLayoutTargets P count).helix.length : ℤ) = count ∧
    ((generateLayoutTargets P count).grid.length : ℤ) = count ∧
    ((generateLayoutTargets P count).tetra.length : ℤ) = count := by
  have hN : (count.toNat : ℤ) = count := Int.toNat_of_nonneg h
  refine ⟨?_, ?_, ?_, ?_, ?_⟩ <;>
    simp only [generateLayoutTargets, length_generateTableLayout, length_generateSphereLayout,
      length_generateHelixLayout, length_generateGridLayout, length_generateTetraLayout, hN]

theorem layouts_C1_lengths_witness :
    0 ≤ (7 : ℤ) ∧
    (((generateLayoutTargets trivPrims 7).table.length : ℤ) = 7 ∧
     ((generateLayoutTargets trivPrims 7).sphere.length : ℤ) = 7 ∧
     ((generateLayoutTargets trivPrims 7).helix.length : ℤ) = 7 ∧
     ((generateLayoutTargets trivPrims 7).grid.length : ℤ) = 7 ∧
     ((generateLayoutTargets trivPrims 7).tetra.length : ℤ) = 7) :=
  ⟨by norm_num, layouts_C1_lengths trivPrims 7 (by norm_num)⟩

/-- C5 counterexample: at count -1 generateLayoutTargets does not fail with an
InvalidArgument error; it returns a normal result whose five layouts are all empty
(the generators have no negative-count check, their loops simply run zero times). -/
theorem layouts_C5_counterexample :
    generateLayoutTargets trivPrims (-1) =
      { table := [], sphere := [], helix := [], grid := [], tetra := [] } := by
  decide

/-- C5 amended: for every count below 0, generateLayoutTargets performs no input
validation and returns a result with all five layouts empty, exactly as for count
equal to 0; no InvalidArgument failure occurs. -/
theorem layouts_C5_negative (P : MathPrims) (count : ℤ) (h : count < 0) :
    generateLayoutTargets P count =
      { table := [], sphere := [], helix := [], grid := [], tetra := [] } := by
  have hN : count.toNat = 0 := Int.toNat_of_nonpos (le_of_lt h)
  simp [generateLayoutTargets, generateTableLayout, generateSphereLayout,
    generateHelixLayout, generateGridLayout, generateTetraLayout,
    tetraFaceTargets_zero, hN]

theorem layouts_C5_negative_witness :
    (-1 : ℤ) < 0 ∧
    generateLayoutTargets trivPrims (-1) =
      { table := [], sphere := [], helix := [], grid := [], tetra := [] } :=
  ⟨by norm_num, layouts_C5_negative trivPrims (-1) (by norm_num)⟩

/-- C6: at count 0 the sphere generator returns the empty sequence, and with its
division by count instrumented through a checked divide it still succeeds — the
per-item formula with the division phi = acos(-1 + 2i/count) is never executed, so
no division-by-zero fault occurs; likewise the helix and tetra generators return
empty sequences. -/
theorem layouts_C6_count_zero (P : MathPrims) :
    generateSphereLayoutChecked P 0 = some [] ∧
    generateSphereLayout P 0 = [] ∧
    generateHelixLayout P 0 = [] ∧
    generateTetraLayout P 0 = [] :=
  ⟨rfl, rfl, rfl, by simp [generateTetraLayout, tetraFaceTargets_zero]⟩

/-- Modelled from the claim wording for the table layout: item i goes to column
i mod 20 and row floor of i over 20, at x = (col - 20/2 + 0.5) * X_SPACING,
y = (10/2 - row - 0.5) * Y_SPACING, z = 0, with identity rotation. -/
def specTablePose (i : ℕ) : Pose :=
  ⟨⟨(((i % 20 : ℕ) : ℚ) - 20 / 2 + 0.5) * 250,
    (10 / 2 - ((i / 20 : ℕ) : ℚ) - 0.5) * 320, 0⟩,
   Rot.euler Vec3.zero⟩

/-- C7: for every count at least 0 and every index i below count, the table layout
places item i exactly at the pose the claim describes. -/
theorem layouts_C7_table (count : ℤ) (h : 0 ≤ count) (i : ℕ) (hi : (i : ℤ) < count) :
    (generateTableLayout count).getD i defaultPose = specTablePose i := by
  have hn : i < count.toNat := by omega
  simp only [generateTableLayout]
  rw [getD_range_map _ _ _ _ hn]
  rfl

theorem layouts_C7_table_witness :
    0 ≤ (7 : ℤ) ∧ ((0 : ℕ) : ℤ) < 7 ∧
    (generateTableLayout 7).getD 0 defaultPose = specTablePose 0 :=
  ⟨by norm_num, by norm_num, layouts_C7_table 7 (by norm_num) 0 (by norm_num)⟩

/-- Modelled from the claim wording for the helix layout: strand i mod 2, step
k = floor of i over 2, angle k * TURN_ANGLE plus pi on the odd strand, radius
RADIUS plus the per-strand offset of plus or minus 20, x = radius * cos angle,
z = radius * sin angle, y = k * VERTICAL_STEP - centerOffset where centerOffset is
(ceil of count over 2 minus 1) * VERTICAL_STEP / 2, looking at the central axis. -/
def specHelixPose (P : MathPrims) (count : ℤ) (i : ℕ) : Pose :=
  let strand : ℕ := i % 2
  let k : ℕ := i / 2
  let angle : ℚ := (k : ℚ) * 0.3 + (if strand = 0 then 0 else P.pi)
  let radius : ℚ := 500 + (if strand = 0 then 20 else -20)
  let centerOffset : ℚ := (((⌈(count : ℚ) / 2⌉ : ℤ) : ℚ) - 1) * 40 / 2
  let y : ℚ := (k : ℚ) * 40 - centerOffset
  ⟨⟨radius * P.cos angle, y, radius * P.sin angle⟩, Rot.lookAt ⟨0, y, 0⟩⟩

/-- C8: for every count at least 0 and every index i below count, the helix layout
places item i exactly at the pose the claim describes. -/
theorem layouts_C8_helix (P : MathPrims) (count : ℤ) (h : 0 ≤ count) (i : ℕ)
    (hi : (i : ℤ) < count) :
    (generateHelixLayout P count).getD i defaultPose = specHelixPose P count i := by
  have hn : i < count.toNat := by omega
  simp only [generateHelixLayout]
  rw [getD_range_map _ _ _ _ hn]
  rfl

theorem layouts_C8_helix_witness :
    0 ≤ (7 : ℤ) ∧ ((3 : ℕ) : ℤ) < 7 ∧
    (generateHelixLayout trivPrims 7).getD 3 defaultPose = specHelixPose trivPrims 7 3 :=
  ⟨by norm_num, by norm_num, layouts_C8_helix trivPrims 7 (by norm_num) 3 (by norm_num)⟩

/-- C9: for every count at least 0, the tetra layout is the face-by-face
concatenation of per-face target lists, and face f receives exactly
floor of count over 4 items plus one extra when f is below count mod 4. -/
theorem layouts_C9_tetra_faces (P : MathPrims) (count : ℤ) (_h : 0 ≤ count) :
    generateTetraLayout P count
      = (List.range 4).flatMap (fun faceIndex => tetraFaceTargets P count.toNat faceIndex) ∧
    (tetraFaceTargets P count.toNat 0).length
      = count.toNat / 4 + (if 0 < count.toNat % 4 then 1 else 0) ∧
    (tetraFaceTargets P count.toNat 1).length
      = count.toNat / 4 + (if 1 < count.toNat % 4 then 1 else 0) ∧
    (tetraFaceTargets P count.toNat 2).length
      = count.toNat / 4 + (if 2 < count.toNat % 4 then 1 else 0) ∧
    (tetraFaceTargets P count.toNat 3).length
      = count.toNat / 4 + (if 3 < count.toNat % 4 then 1 else 0) :=
  ⟨rfl, length_tetraFaceTargets P count.toNat 0, length_tetraFaceTargets P count.toNat 1,
   length_tetraFaceTargets P count.toNat 2, length_tetraFaceTargets P count.toNat 3⟩

theorem layouts_C9_tetra_faces_witness :
    0 ≤ (4 : ℤ) ∧
    (tetraFaceTargets trivPrims 4 0).length = 1 ∧
    (tetraFaceTargets trivPrims 4 1).length = 1 ∧
    (tetraFaceTargets trivPrims 4 2).length = 1 ∧
    (tetraFaceTargets trivPrims 4 3).length = 1 := by
  have h := layouts_C9_tetra_faces trivPrims 4 (by norm_num)
  exact ⟨by norm_num, by simpa using h.2.1, by simpa using h.2.2.1,
         by simpa using h.2.2.2.1, by simpa using h.2.2.2.2⟩

/-!
Transition engine, embedded from transform.js together with the behaviour of the
tween library.

Scene objects are identified by their index into a list of poses; an engine state
is that list plus the module-level activeTweens list.  Every tween the module
creates is started immediately and recorded in activeTweens, and a tween leaves
both the tween group and activeTweens at the same moments (its stop method on
stopAllTweens, its completion handler on finishing), so one list models both.
The implicit clock is made explicit: transform takes the timestamp at which the
created tweens start, and update takes the timestamp of the frame.
-/

/-- Live pose of one scene object: position and rotation as Euler components,
each a 3D vector mutated componentwise by tweens. -/
structure ObjPose where
  position : Vec3
  rotation : Vec3
deriving DecidableEq, Repr

def ObjPose.zero : ObjPose := ⟨Vec3.zero, Vec3.zero⟩

/-- Which property object a tween animates: the position or the rotation vector. -/
inductive Channel where
  | position
  | rotation
deriving DecidableEq, Repr

/-- One tween: the animated object index and channel, the values captured at start,
the target values, the start timestamp and the duration. -/
structure Tween where
  objIdx : ℕ
  channel : Channel
  startVal : Vec3
  endVal : Vec3
  startTime : ℚ
  duration : ℚ
deriving DecidableEq, Repr

/-- Engine state: the live poses of the scene objects and the active tween list. -/
structure EngineState where
  poses : List ObjPose
  activeTweens : List Tween
deriving DecidableEq, Repr

/-- The cubic in-out easing curve of the tween library. -/
def cubicInOut (k : ℚ) : ℚ :=
  if 2 * k < 1 then 0.5 * (2 * k) ^ 3 else 0.5 * ((2 * k - 2) ^ 3 + 2)

/-- Componentwise interpolation of the tween library: start + (end - start) * t. -/
def lerpQ (s e t : ℚ) : ℚ := s + (e - s) * t

def lerpVec (s e : Vec3) (t : ℚ) : Vec3 :=
  ⟨lerpQ s.x e.x t, lerpQ s.y e.y t, lerpQ s.z e.z t⟩

def ObjPose.getCh (p : ObjPose) : Channel → Vec3
  | Channel.position => p.position
  | Channel.rotation => p.rotation

def ObjPose.setCh (p : ObjPose) : Channel → Vec3 → ObjPose
  | Channel.position, v => { p with position := v }
  | Channel.rotation, v => { p with rotation := v }

/-- The elapsed fraction a tween computes on update: raw elapsed over duration,
forced to 1 when the duration is 0 or the raw fraction exceeds 1. -/
def tweenElapsed (tw : Tween) (time : ℚ) : ℚ :=
  if tw.duration = 0 ∨ (time - tw.startTime) / tw.duration > 1 then 1
  else (time - tw.startTime) / tw.duration

/-- One tween processed by the group update at the given time: before its start
time it does nothing and stays active; otherwise it writes the eased interpolated
value into its channel of its object, and it finishes (leaving the group and, via
its completion handler, the activeTweens list) exactly when the elapsed fraction
reaches 1. -/
def tweenStep (poses : List ObjPose) (tw : Tween) (time : ℚ) : List ObjPose × Bool :=
  if time < tw.startTime then (poses, true)
  else
    let e := tweenElapsed tw time
    (poses.set tw.objIdx ((poses.getD tw.objIdx ObjPose.zero).setCh tw.channel
        (lerpVec tw.startVal tw.endVal (cubicInOut e))),
     if e = 1 then false else true)

/-- The group update over the whole active list, in creation order, keeping the
tweens that are still running. -/
def updateTweens (poses : List ObjPose) (tws : List Tween) (time : ℚ) :
    List ObjPose × List Tween :=
  match tws with
  | [] => (poses, [])
  | tw :: rest =>
    let s := tweenStep poses tw time
    let r := updateTweens s.1 rest time
    (r.1, if s.2 then tw :: r.2 else r.2)

/-- The update entry point called once per rendering frame. -/
def update (s : EngineState) (time : ℚ) : EngineState :=
  let r := updateTweens s.poses s.activeTweens time
  ⟨r.1, r.2⟩

/-- The synchronous report a transform call produces: success, the empty-input
no-op warning, or the mismatched-lengths warning. -/
inductive TransformOutcome where
  | ok
  | emptyInput
  | mismatchedLength
deriving DecidableEq, Repr

/-- The tweens createTweensForObject builds for the item list: for each pair of
object index and target, one position tween and one rotation tween, capturing the
object current values as start values, started at the given time. -/
def makeTweens (poses : List ObjPose) (pairs : List (ℕ × ObjPose))
    (duration now : ℚ) : List Tween :=
  pairs.flatMap fun p =>
    let cur := poses.getD p.1 ObjPose.zero
    [⟨p.1, Channel.position, cur.position, p.2.position, now, duration⟩,
     ⟨p.1, Channel.rotation, cur.rotation, p.2.rotation, now, duration⟩]

/-- The transform entry point: rejects an empty item list, then mismatched lengths,
each leaving the state untouched; otherwise it stops and discards every active
tween and installs the freshly created tweens for exactly the given items. -/
def transform (s : EngineState) (items : List ℕ) (targets : List ObjPose)
    (duration now : ℚ) : EngineState × TransformOutcome :=
  if items.length = 0 then (s, TransformOutcome.emptyInput)
  else if items.length ≠ targets.length then (s, TransformOutcome.mismatchedLength)
  else (⟨s.poses, makeTweens s.poses (items.zip targets) duration now⟩, TransformOutcome.ok)

/-! Helper lemmas for the engine proofs. -/

lemma getD_set_lt {α : Type} (l : List α) (i : ℕ) (v d : α) (h : i < l.length) :
    (l.set i v).getD i d = v := by
  rw [List.getD_eq_getElem?_getD, List.getElem?_set_self', List.getElem?_eq_getElem h]
  rfl

lemma getD_set_ne {α : Type} (l : List α) (i j : ℕ) (v d : α) (h : i ≠ j) :
    (l.set i v).getD j d = l.getD j d := by
  rw [List.getD_eq_getElem?_getD, List.getElem?_set_ne h, ← List.getD_eq_getElem?_getD]

lemma cubicInOut_one : cubicInOut 1 = 1 := by
  norm_num [cubicInOut]

lemma lerpVec_one (s e : Vec3) : lerpVec s e 1 = e := by
  cases e
  simp only [lerpVec, lerpQ, Vec3.mk.injEq]
  refine ⟨by ring, by ring, by ring⟩

lemma tweenElapsed_snap (tw : Tween) (time : ℚ)
    (h : tw.duration = 0 ∨ (0 < tw.duration ∧ tw.startTime + tw.duration ≤ time)) :
    tweenElapsed tw time = 1 := by
  unfold tweenElapsed
  rcases h with h0 | ⟨hpos, hle⟩
  · rw [if_pos (Or.inl h0)]
  · have hraw : 1 ≤ (time - tw.startTime) / tw.duration := by
      rw [le_div_iff₀ hpos]
      linarith
    rcases lt_or_eq_of_le hraw with hgt | heq
    · rw [if_pos (Or.inr hgt)]
    · rw [if_neg, ← heq]
      push_neg
      constructor
      · linarith
      · linarith
lemma tweenStep_snap (poses : List ObjPose) (tw : Tween) (time : ℚ)
    (h1 : tw.startTime ≤ time)
    (h2 : tw.duration = 0 ∨ (0 < tw.duration ∧ tw.startTime + tw.duration ≤ time)) :
    tweenStep poses tw time =
      (poses.set tw.objIdx ((poses.getD tw.objIdx ObjPose.zero).setCh tw.channel tw.endVal),
       false) := by
  unfold tweenStep
  rw [if_neg (not_lt.mpr h1), tweenElapsed_snap tw time h2]
  simp only [cubicInOut_one, lerpVec_one, if_pos]

lemma set_pair_collapse (poses : List ObjPose) (i : ℕ) (tgt : ObjPose) :
    ((poses.set i ((poses.getD i ObjPose.zero).setCh Channel.position tgt.position)).set i
      (((poses.set i ((poses.getD i ObjPose.zero).setCh Channel.position
          tgt.position)).getD i ObjPose.zero).setCh Channel.rotation tgt.rotation))
    = poses.set i tgt := by
  by_cases h : i < poses.length
  · rw [getD_set_lt _ _ _ _ h, List.set_set]
    cases tgt
    rfl
  · have hlen : poses.length ≤ i := le_of_not_lt h
    rw [List.set_eq_of_length_le hlen, List.set_eq_of_length_le hlen,
      List.set_eq_of_length_le hlen]

/-- The cumulative effect on the pose list of snapping each pair in order: each
object index is overwritten with its whole target pose. -/
def snapPoses (poses : List ObjPose) (pairs : List (ℕ × ObjPose)) : List ObjPose :=
  pairs.foldl (fun ps p => ps.set p.1 p.2) poses

lemma snapPoses_nil (poses : List ObjPose) : snapPoses poses [] = poses := rfl

lemma snapPoses_cons (poses : List ObjPose) (p : ℕ × ObjPose) (rest : List (ℕ × ObjPose)) :
    snapPoses poses (p :: rest) = snapPoses (poses.set p.1 p.2) rest := rfl

lemma length_snapPoses (pairs : List (ℕ × ObjPose)) :
    ∀ poses : List ObjPose, (snapPoses poses pairs).length = poses.length := by
  induction pairs with
  | nil => intro poses; rfl
  | cons p rest ih =>
    intro poses
    rw [snapPoses_cons, ih, List.length_set]

lemma getD_snapPoses_of_notin (pairs : List (ℕ × ObjPose)) :
    ∀ (poses : List ObjPose) (i : ℕ), i ∉ pairs.map Prod.fst →
      (snapPoses poses pairs).getD i ObjPose.zero = poses.getD i ObjPose.zero := by
  induction pairs with
  | nil => intro poses i _; rfl
  | cons p rest ih =>
    intro poses i hi
    rw [List.map_cons, List.mem_cons, not_or] at hi
    rw [snapPoses_cons, ih _ _ hi.2, getD_set_ne _ _ _ _ _ (fun he => hi.1 he.symm)]

/-- Snapping a zipped item and target list, with distinct item indices, leaves the
object of the j-th item at exactly the j-th target. -/
lemma getD_snapPoses_zip :
    ∀ (items : List ℕ) (targets poses : List ObjPose) (j : ℕ),
      items.Nodup → items.length = targets.length → j < items.length →
      items.getD j 0 < poses.length →
      (snapPoses poses (items.zip targets)).getD (items.getD j 0) ObjPose.zero
        = targets.getD j ObjPose.zero := by
  intro items
  induction items with
  | nil =>
    intro targets poses j _ _ hj _
    simp at hj
  | cons i is ih =>
    intro targets poses j hnd hlen hj hv
    cases targets with
    | nil => simp at hlen
    | cons t ts =>
      have hlen2 : is.length = ts.length := by simpa using hlen
      cases j with
      | zero =>
        simp only [List.getD_cons_zero] at hv ⊢
        rw [List.zip_cons_cons, snapPoses_cons]
        have hmap : (is.zip ts).map Prod.fst = is := List.map_fst_zip is ts (le_of_eq hlen2)
        have hni : i ∉ is := (List.nodup_cons.mp hnd).1
        rw [getD_snapPoses_of_notin _ _ _ (by rw [hmap]; exact hni)]
        exact getD_set_lt _ _ _ _ hv
      | succ j =>
        simp only [List.getD_cons_succ] at hv ⊢
        rw [List.zip_cons_cons, snapPoses_cons]
        exact ih ts (poses.set i t) j (List.nodup_cons.mp hnd).2 hlen2 (by simpa using hj)
          (by rw [List.length_set]; exact hv)

/-- Updating at a time late enough that every created tween snaps: the whole tween
list created by a transform call finishes in one update, writing every target pose
and emptying the active set.  The capture list the start values were read from is
irrelevant because a snapping tween writes its end value. -/
lemma updateTweens_makeTweens (cap : List ObjPose) (d now time : ℚ)
    (h1 : now ≤ time) (h2 : d = 0 ∨ (0 < d ∧ now + d ≤ time)) :
    ∀ (pairs : List (ℕ × ObjPose)) (poses : List ObjPose),
      updateTweens poses (makeTweens cap pairs d now) time = (snapPoses poses pairs, []) := by
  intro pairs
  induction pairs with
  | nil => intro poses; rfl
  | cons p rest ih =>
    intro poses
    have hcons : makeTweens cap (p :: rest) d now =
        (⟨p.1, Channel.position, (cap.getD p.1 ObjPose.zero).position, p.2.position, now, d⟩
          : Tween) ::
        (⟨p.1, Channel.rotation, (cap.getD p.1 ObjPose.zero).rotation, p.2.rotation, now, d⟩
          : Tween) :: makeTweens cap rest d now := rfl
    rw [hcons]
    have hsnap1 := tweenStep_snap poses
      ⟨p.1, Channel.position, (cap.getD p.1 ObjPose.zero).position, p.2.position, now, d⟩
      time h1 h2
    rw [updateTweens, hsnap1]
    set poses1 := poses.set p.1
      ((poses.getD p.1 ObjPose.zero).setCh Channel.position p.2.position) with hposes1
    have hsnap2 := tweenStep_snap poses1
      ⟨p.1, Channel.rotation, (cap.getD p.1 ObjPose.zero).rotation, p.2.rotation, now, d⟩
      time h1 h2
    rw [updateTweens, hsnap2, ih]
    simp only [Bool.false_eq_true, if_false]
    rw [snapPoses_cons]
    have hcollapse : poses1.set p.1 ((poses1.getD p.1 ObjPose.zero).setCh Channel.rotation
        p.2.rotation) = poses.set p.1 p.2 := by
      rw [hposes1]
      exact set_pair_collapse poses p.1 p.2
    rw [hcollapse]

/-- A transform call with a non-empty item list of the same length as the target
list takes the success path: the poses are untouched and the active set becomes
exactly the freshly created tween list. -/
lemma transform_ok (s : EngineState) (items : List ℕ) (targets : List ObjPose)
    (d now : ℚ) (hne : items ≠ []) (hlen : items.length = targets.length) :
    transform s items targets d now =
      (⟨s.poses, makeTweens s.poses (items.zip targets) d now⟩, TransformOutcome.ok) := by
  unfold transform
  rw [if_neg (fun h => hne (List.length_eq_zero.mp h)), if_neg (fun h => h hlen)]

lemma update_no_tweens (poses : List ObjPose) (time : ℚ) :
    update ⟨poses, []⟩ time = ⟨poses, []⟩ := rfl

lemma getD_mem_of_lt (items : List ℕ) (j : ℕ) (hj : j < items.length) :
    items.getD j 0 ∈ items := by
  rw [List.getD_eq_getElem items 0 hj]
  exact List.getElem_mem hj

lemma length_makeTweens (cap : List ObjPose) (d now : ℚ) (pairs : List (ℕ × ObjPose)) :
    (makeTweens cap pairs d now).length = 2 * pairs.length := by
  induction pairs with
  | nil => rfl
  | cons p rest ih =>
    simp only [makeTweens, List.flatMap_cons, List.length_append, List.length_cons,
      List.length_nil] at ih ⊢
    omega

lemma mem_makeTweens (cap : List ObjPose) (d now : ℚ) (pairs : List (ℕ × ObjPose))
    (tw : Tween) (h : tw ∈ makeTweens cap pairs d now) :
    tw.objIdx ∈ pairs.map Prod.fst ∧ tw.startTime = now ∧ tw.duration = d := by
  induction pairs with
  | nil => cases h
  | cons p rest ih =>
    have hcons : makeTweens cap (p :: rest) d now =
        (⟨p.1, Channel.position, (cap.getD p.1 ObjPose.zero).position, p.2.position, now, d⟩
          : Tween) ::
        (⟨p.1, Channel.rotation, (cap.getD p.1 ObjPose.zero).rotation, p.2.rotation, now, d⟩
          : Tween) :: makeTweens cap rest d now := rfl
    rw [hcons, List.mem_cons, List.mem_cons] at h
    rcases h with h | h | h
    · subst h
      exact ⟨by simp, rfl, rfl⟩
    · subst h
      exact ⟨by simp, rfl, rfl⟩
    · refine ⟨?_, (ih h).2.1, (ih h).2.2⟩
      rw [List.map_cons]
      exact List.mem_cons_of_mem _ (ih h).1

/-- C10: every successful transform call with non-empty equal-length arrays stops
and discards the entire previous active tween set — including tweens animating
objects not in the call — so that immediately after the call the active set holds
exactly the tweens created by the call: one position tween and one rotation tween
per item, all started at the call time with the call duration, and the resulting
active set does not depend on the previous one. -/
theorem engine_C10_active_set (s : EngineState) (items : List ℕ)
    (targets : List ObjPose) (d now : ℚ)
    (hne : items ≠ []) (hlen : items.length = targets.length) :
    (transform s items targets d now).2 = TransformOutcome.ok ∧
    (transform s items targets d now).1.activeTweens
      = makeTweens s.poses (items.zip targets) d now ∧
    (transform s items targets d now).1.activeTweens.length = 2 * items.length ∧
    (∀ tw ∈ (transform s items targets d now).1.activeTweens,
      tw.objIdx ∈ items ∧ tw.startTime = now ∧ tw.duration = d) ∧
    (transform ⟨s.poses, []⟩ items targets d now).1.activeTweens
      = (transform s items targets d now).1.activeTweens := by
  rw [transform_ok s items targets d now hne hlen,
    transform_ok ⟨s.poses, []⟩ items targets d now hne hlen]
  have hmap : (items.zip targets).map Prod.fst = items :=
    List.map_fst_zip items targets (le_of_eq hlen)
  refine ⟨rfl, rfl, ?_, ?_, rfl⟩
  · rw [length_makeTweens, List.length_zip, ← hlen, Nat.min_self]
  · intro tw htw
    have h := mem_makeTweens s.poses d now (items.zip targets) tw htw
    rw [hmap] at h
    exact h

theorem engine_C10_active_set_witness :
    ([0] : List ℕ) ≠ [] ∧
    (transform ⟨[ObjPose.zero], [⟨5, Channel.position, Vec3.zero, ⟨1, 1, 1⟩, 0, 9⟩]⟩
        [0] [ObjPose.zero] 2000 1).1.activeTweens.length = 2 * ([0] : List ℕ).length := by
  refine ⟨by decide, ?_⟩
  exact (engine_C10_active_set
    ⟨[ObjPose.zero], [⟨5, Channel.position, Vec3.zero, ⟨1, 1, 1⟩, 0, 9⟩]⟩
    [0] [ObjPose.zero] 2000 1 (by decide) (by decide)).2.2.1

/-- C4 counterexample: with an empty item list and a one-element target list the
lengths differ, yet the call reports the empty-input no-op outcome, not the
mismatched-lengths one — the empty check runs first. -/
theorem engine_C4_counterexample :
    ([] : List ℕ).length ≠ ([ObjPose.zero] : List ObjPose).length ∧
    (transform ⟨[ObjPose.zero], []⟩ [] [ObjPose.zero] 1000 0).2
      = TransformOutcome.emptyInput ∧
    TransformOutcome.emptyInput ≠ TransformOutcome.mismatchedLength := by
  exact ⟨by decide, rfl, by decide⟩

/-- C4 amended: a transform call whose items and targets have different lengths
never mutates the engine state — poses and active tweens are returned untouched —
and reports mismatched lengths when items is non-empty; when items is empty the
empty-input check fires first and the call reports the empty-input no-op instead. -/
theorem engine_C4_mismatch (s : EngineState) (items : List ℕ) (targets : List ObjPose)
    (d now : ℚ) (hdiff : items.length ≠ targets.length) :
    (transform s items targets d now).1 = s ∧
    (transform s items targets d now).2
      = (if items.length = 0 then TransformOutcome.emptyInput
         else TransformOutcome.mismatchedLength) := by
  by_cases h0 : items.length = 0
  · simp [transform, h0]
  · simp [transform, h0, hdiff]

theorem engine_C4_mismatch_witness :
    ([0, 1] : List ℕ).length ≠ ([ObjPose.zero] : List ObjPose).length ∧
    (transform ⟨[ObjPose.zero, ObjPose.zero], []⟩ [0, 1] [ObjPose.zero] 1000 0).1
      = ⟨[ObjPose.zero, ObjPose.zero], []⟩ ∧
    (transform ⟨[ObjPose.zero, ObjPose.zero], []⟩ [0, 1] [ObjPose.zero] 1000 0).2
      = TransformOutcome.mismatchedLength := by
  have h := engine_C4_mismatch ⟨[ObjPose.zero, ObjPose.zero], []⟩ [0, 1] [ObjPose.zero]
    1000 0 (by decide)
  exact ⟨by decide, h.1, by simpa using h.2⟩

/-- C3 counterexample: a transform call with duration 0 does not immediately set
the pose to the target — right after the call the pose is still the old one — and
the subsequent update call is not a no-op, since it is the update that snaps the
pose and retires the tweens. -/
theorem engine_C3_counterexample :
    ((transform ⟨[ObjPose.zero], []⟩ [0] [⟨⟨1, 2, 3⟩, Vec3.zero⟩] 0 5).1.poses.getD 0
        ObjPose.zero ≠ (⟨⟨1, 2, 3⟩, Vec3.zero⟩ : ObjPose)) ∧
    update (transform ⟨[ObjPose.zero], []⟩ [0] [⟨⟨1, 2, 3⟩, Vec3.zero⟩] 0 5).1 5
      ≠ (transform ⟨[ObjPose.zero], []⟩ [0] [⟨⟨1, 2, 3⟩, Vec3.zero⟩] 0 5).1 := by
  rw [transform_ok ⟨[ObjPose.zero], []⟩ [0] [⟨⟨1, 2, 3⟩, Vec3.zero⟩] 0 5
    (by decide) (by decide)]
  have hupd : update ⟨[ObjPose.zero],
      makeTweens [ObjPose.zero] ([0].zip [⟨⟨1, 2, 3⟩, Vec3.zero⟩]) 0 5⟩ 5
      = ⟨snapPoses [ObjPose.zero] ([0].zip [⟨⟨1, 2, 3⟩, Vec3.zero⟩]), []⟩ := by
    unfold update
    rw [updateTweens_makeTweens [ObjPose.zero] 0 5 5 (le_refl 5) (Or.inl rfl)]
  constructor
  · decide
  · rw [hupd]
    decide

/-- C3 amended: a transform call with duration 0 leaves every pose unchanged and
installs zero-duration tweens; the first update at any time not before the call
then sets every item pose exactly to its target — with no intermediate
interpolated value ever written — and empties the active set, so that every
further update call is a no-op. -/
theorem engine_C3_zero_duration (s : EngineState) (items : List ℕ)
    (targets : List ObjPose) (now time : ℚ)
    (hne : items ≠ []) (hlen : items.length = targets.length) (hnd : items.Nodup)
    (hv : ∀ i ∈ items, i < s.poses.length) (ht : now ≤ time) :
    (transform s items targets 0 now).1.poses = s.poses ∧
    (∀ j, j < items.length →
      (update (transform s items targets 0 now).1 time).poses.getD (items.getD j 0)
        ObjPose.zero = targets.getD j ObjPose.zero) ∧
    (update (transform s items targets 0 now).1 time).activeTweens = [] ∧
    (∀ later : ℚ, update (update (transform s items targets 0 now).1 time) later
      = update (transform s items targets 0 now).1 time) := by
  rw [transform_ok s items targets 0 now hne hlen]
  have hupd : update ⟨s.poses, makeTweens s.poses (items.zip targets) 0 now⟩ time
      = ⟨snapPoses s.poses (items.zip targets), []⟩ := by
    unfold update
    rw [updateTweens_makeTweens s.poses 0 now time ht (Or.inl rfl)]
  rw [hupd]
  refine ⟨rfl, ?_, rfl, fun later => rfl⟩
  intro j hj
  exact getD_snapPoses_zip items targets s.poses j hnd hlen hj
    (hv _ (getD_mem_of_lt items j hj))

theorem engine_C3_zero_duration_witness :
    (5 : ℚ) ≤ 5 ∧
    (update (transform ⟨[ObjPose.zero], []⟩ [0] [⟨⟨1, 2, 3⟩, Vec3.zero⟩] 0 5).1 5).poses.getD
        (([0] : List ℕ).getD 0 0) ObjPose.zero
      = ([⟨⟨1, 2, 3⟩, Vec3.zero⟩] : List ObjPose).getD 0 ObjPose.zero := by
  refine ⟨le_refl 5, ?_⟩
  exact (engine_C3_zero_duration ⟨[ObjPose.zero], []⟩ [0] [⟨⟨1, 2, 3⟩, Vec3.zero⟩] 5 5
    (by decide) (by decide) (by decide) (by decide) (le_refl 5)).2.1 0 (by decide)

/-- C2: beginning a transition of the items toward target set B and, before any
update tick, superseding it with a transition toward target set C of duration 500,
then updating once the clock has advanced by at least 500: neither transform call
moves any pose, that update puts every item exactly at its C target and empties
the active set, and for every item whose pose was not already at its B target and
whose C target differs from its B target, the pose differs from the B target at
every step — the superseded transition toward B is discarded, never completed. -/
theorem engine_C2_cancellation (s : EngineState) (items : List ℕ)
    (targetsB targetsC : List ObjPose) (dB t0 time : ℚ)
    (hne : items ≠ []) (hlenB : items.length = targetsB.length)
    (hlenC : items.length = targetsC.length) (hnd : items.Nodup)
    (hv : ∀ i ∈ items, i < s.poses.length) (ht : t0 + 500 ≤ time) :
    (transform s items targetsB dB t0).1.poses = s.poses ∧
    (transform (transform s items targetsB dB t0).1 items targetsC 500 t0).1.poses
      = s.poses ∧
    (update (transform (transform s items targetsB dB t0).1 items targetsC 500 t0).1
        time).activeTweens = [] ∧
    (∀ j, j < items.length →
      (update (transform (transform s items targetsB dB t0).1 items targetsC 500 t0).1
          time).poses.getD (items.getD j 0) ObjPose.zero
        = targetsC.getD j ObjPose.zero) ∧
    (∀ j, j < items.length →
      s.poses.getD (items.getD j 0) ObjPose.zero ≠ targetsB.getD j ObjPose.zero →
      targetsC.getD j ObjPose.zero ≠ targetsB.getD j ObjPose.zero →
      ((transform s items targetsB dB t0).1.poses.getD (items.getD j 0) ObjPose.zero
          ≠ targetsB.getD j ObjPose.zero ∧
       (transform (transform s items targetsB dB t0).1 items targetsC 500
          t0).1.poses.getD (items.getD j 0) ObjPose.zero
          ≠ targetsB.getD j ObjPose.zero ∧
       (update (transform (transform s items targetsB dB t0).1 items targetsC 500
          t0).1 time).poses.getD (items.getD j 0) ObjPose.zero
          ≠ targetsB.getD j ObjPose.zero)) := by
  have ht0 : t0 ≤ time := by linarith
  rw [transform_ok s items targetsB dB t0 hne hlenB]
  rw [transform_ok ⟨s.poses, makeTweens s.poses (items.zip targetsB) dB t0⟩
    items targetsC 500 t0 hne hlenC]
  have hupd : update ⟨s.poses, makeTweens s.poses (items.zip targetsC) 500 t0⟩ time
      = ⟨snapPoses s.poses (items.zip targetsC), []⟩ := by
    unfold update
    rw [updateTweens_makeTweens s.poses 500 t0 time ht0 (Or.inr ⟨by norm_num, ht⟩)]
  rw [hupd]
  have hC : ∀ j, j < items.length →
      (snapPoses s.poses (items.zip targetsC)).getD (items.getD j 0) ObjPose.zero
        = targetsC.getD j ObjPose.zero := fun j hj =>
    getD_snapPoses_zip items targetsC s.poses j hnd hlenC hj
      (hv _ (getD_mem_of_lt items j hj))
  refine ⟨rfl, rfl, rfl, hC, ?_⟩
  intro j hj hB hCB
  refine ⟨hB, hB, ?_⟩
  rw [hC j hj]
  exact hCB

theorem engine_C2_cancellation_witness :
    (0 : ℚ) + 500 ≤ 500 ∧
    (update (transform (transform ⟨[ObjPose.zero], []⟩ [0] [⟨⟨9, 9, 9⟩, Vec3.zero⟩]
        1000 0).1 [0] [⟨⟨1, 2, 3⟩, Vec3.zero⟩] 500 0).1 500).poses.getD
        (([0] : List ℕ).getD 0 0) ObjPose.zero
      = ([⟨⟨1, 2, 3⟩, Vec3.zero⟩] : List ObjPose).getD 0 ObjPose.zero ∧
    (update (transform (transform ⟨[ObjPose.zero], []⟩ [0] [⟨⟨9, 9, 9⟩, Vec3.zero⟩]
        1000 0).1 [0] [⟨⟨1, 2, 3⟩, Vec3.zero⟩] 500 0).1 500).poses.getD
        (([0] : List ℕ).getD 0 0) ObjPose.zero
      ≠ ([⟨⟨9, 9, 9⟩, Vec3.zero⟩] : List ObjPose).getD 0 ObjPose.zero := by
  have h := engine_C2_cancellation ⟨[ObjPose.zero], []⟩ [0] [⟨⟨9, 9, 9⟩, Vec3.zero⟩]
    [⟨⟨1, 2, 3⟩, Vec3.zero⟩] 1000 0 500 (by decide) (by decide) (by decide) (by decide)
    (by decide) (by norm_num)
  exact ⟨by norm_num, h.2.2.2.1 0 (by decide),
    (h.2.2.2.2 0 (by decide) (by decide) (by decide)).2.2⟩

end Kasatria
